import Mathlib

/-!
Verification development for the H-UDP hybrid reliability transport
(`hudp/packet.py`, `hudp/reliable.py`, `hudp/game_net_api.py`).

The Python source is shallowly embedded: byte strings are `List Nat`
(each element a byte value), Python `dict`s are association lists in
insertion order (CPython semantics: assignment to an existing key keeps
its position, assignment to a fresh key appends, `pop` removes),
Python `float` fields are modelled as `ℚ`, millisecond clock values as
`ℤ`, and calls that can raise are `Option`/`Except` valued.
-/

set_option autoImplicit false

/-! ## Sequence arithmetic (`hudp/reliable.py`, mod-16 helpers) -/

/-- Models `_U16_MOD = 1 << 16`. -/
def U16_MOD : Nat := 65536

/-- Models `u16(x) = x & 0xFFFF`. -/
def u16 (x : Nat) : Nat := x % U16_MOD

/-- Models `u16_incr(x) = (x + 1) & 0xFFFF` (the code only ever uses `inc = 1`). -/
def u16_incr (x : Nat) : Nat := (x + 1) % U16_MOD

/-- Models `u16_distance(start, end) = (end - start) & 0xFFFF`; Python subtraction may
go negative and the mask takes the value mod 2^16, which over `Nat` is
`(end + (2^16 - start % 2^16)) % 2^16`. -/
def u16_distance (start e : Nat) : Nat := (e + (U16_MOD - start % U16_MOD)) % U16_MOD

/-- Python subtraction `a - b` followed by the 2^16 mask (used for
`u16(self._expected - self.window_size)`). -/
def u16_sub (a b : Nat) : Nat := (a + (U16_MOD - b % U16_MOD)) % U16_MOD

/-- Models `u16_in_window(seq, start, size)`: `u16_distance(start, seq) < size`. -/
def u16_in_window (seq start size : Nat) : Bool := decide (u16_distance start seq < size)

/-! ## Wire codec (`hudp/packet.py`) -/

/-- Channel tag for reliable data. -/
def RELIABLE : Nat := 0

/-- Channel tag for unreliable data. -/
def UNRELIABLE : Nat := 1

/-- Channel tag for ACK packets. -/
def ACK : Nat := 2

/-- Models `struct.calcsize("!BHI")`. -/
def HEADER_SIZE : Nat := 7

/-- Models `struct.calcsize("!BH")`. -/
def ACK_SIZE : Nat := 3

/-- Models `struct.pack("!BHI", channel, seq_num, ts)`: big-endian `u8 | u16 | u32`.
`struct.error` (modelled as `none`) when a field does not fit its width.
The Python function reads the timestamp from `now_ms()`; the clock value is an
explicit argument here. -/
def pack_header (channel seq_num ts : Nat) : Option (List Nat) :=
  if channel < 256 ∧ seq_num < 65536 ∧ ts < 4294967296 then
    some [channel, seq_num / 256, seq_num % 256,
          ts / 16777216, ts / 65536 % 256, ts / 256 % 256, ts % 256]
  else none

/-- Models `struct.unpack("!BHI", data)`: requires exactly 7 bytes. -/
def unpack_header (data : List Nat) : Option (Nat × Nat × Nat) :=
  match data with
  | [c, s1, s0, t3, t2, t1, t0] =>
      some (c, s1 * 256 + s0, ((t3 * 256 + t2) * 256 + t1) * 256 + t0)
  | _ => none

/-- Models `pack_ack(seq_num) = struct.pack("!BH", ACK, seq_num)`: the implemented ACK
wire format is 3 bytes, tag and sequence only — it has no `recv_window` field. -/
def pack_ack (seq_num : Nat) : Option (List Nat) :=
  if seq_num < 65536 then some [ACK, seq_num / 256, seq_num % 256] else none

/-- Models `unpack_ack(data)`: `_, seq_num = struct.unpack("!BH", data); return seq_num` —
a single integer, requiring exactly 3 bytes of input. -/
def unpack_ack (data : List Nat) : Option Nat :=
  match data with
  | [_, s1, s0] => some (s1 * 256 + s0)
  | _ => none

/-! ## Python dynamic-call model

`game_net_api.py` calls `pack_ack(ack_seq, recv_window)` with two positional
arguments while `packet.py` defines `pack_ack` with a single parameter, and
`_handle_ack` destructures the single integer returned by `unpack_ack` into
two names.  Both are uncaught `TypeError`s at run time, so the call sites are
modelled with explicit Python call/destructuring semantics. -/

inductive PyErr where
  | typeError
  | structError
deriving DecidableEq

/-- A Python call of `packet.py`'s `pack_ack` with a positional argument list:
the function has exactly one parameter, so any other arity raises `TypeError`;
an out-of-range field raises `struct.error`. -/
def pack_ack_call (args : List Nat) : Except PyErr (List Nat) :=
  match args with
  | [seq_num] =>
      match pack_ack seq_num with
      | some bs => Except.ok bs
      | none => Except.error PyErr.structError
  | _ => Except.error PyErr.typeError

/-- Models `GameNetAPI._sr_send_ack(ack_seq, recv_window)` builds its packet with
`pack_ack(ack_seq, recv_window)` — a two-argument call. -/
def sr_send_ack_packet (ack_seq recv_window : Nat) : Except PyErr (List Nat) :=
  pack_ack_call [ack_seq, recv_window]

/-- Minimal Python value model for the result of `unpack_ack`. -/
inductive PyVal where
  | int (n : Nat)
  | pair (a b : Nat)
deriving DecidableEq

/-- Models `unpack_ack` as executed: `struct.unpack` needs exactly 3 bytes, and the
function returns the bare integer `seq_num`. -/
def unpack_ack_val (data : List Nat) : Except PyErr PyVal :=
  match data with
  | [_, s1, s0] => Except.ok (PyVal.int (s1 * 256 + s0))
  | _ => Except.error PyErr.structError

/-- Python tuple destructuring `a, b = v`: succeeds only when `v` is an
iterable yielding exactly two values; an `int` raises `TypeError`. -/
def py_unpack2 (v : PyVal) : Except PyErr (Nat × Nat) :=
  match v with
  | PyVal.pair a b => Except.ok (a, b)
  | PyVal.int _ => Except.error PyErr.typeError

/-- Models `GameNetAPI._handle_ack`: `ack_seq, recv_window = unpack_ack(data)`. -/
def handle_ack (data : List Nat) : Except PyErr (Nat × Nat) := do
  let v ← unpack_ack_val data
  py_unpack2 v

/-- Routing action taken by the multiplexer for one inbound datagram.  The
downstream calls (`sr_sender.ack`, queue append, `sr_receiver.on_data`) are
represented by the event; `none` means the datagram was silently discarded. -/
inductive MuxEvent where
  | enqueue_unreliable (seq ts : Nat) (payload : List Nat)
  | reliable_data (seq ts : Nat) (payload : List Nat)
  | ack_to_sender (ack_seq recv_window : Nat)
deriving DecidableEq

/-- Models `GameNetAPI._internal_process_packet(data)`: dispatch on length and tag.
`Except.error` is an uncaught Python exception escaping the function. -/
def internal_process_packet (data : List Nat) : Except PyErr (Option MuxEvent) :=
  if data.length = ACK_SIZE ∧ data.head? = some ACK then
    (handle_ack data).map (fun p => some (MuxEvent.ack_to_sender p.1 p.2))
  else if HEADER_SIZE ≤ data.length then
    match unpack_header (data.take HEADER_SIZE) with
    | some (c, s, t) =>
        if c = UNRELIABLE then
          Except.ok (some (MuxEvent.enqueue_unreliable s t (data.drop HEADER_SIZE)))
        else if c = RELIABLE then
          Except.ok (some (MuxEvent.reliable_data s t (data.drop HEADER_SIZE)))
        else Except.ok none
    | none => Except.ok none
  else Except.ok none

/-! ## Python `dict` model (insertion-ordered association list) -/

/-- Models `m[k]` / `m.get(k)`: the value stored at `k`. -/
def dictGet {α : Type} (m : List (Nat × α)) (k : Nat) : Option α :=
  (m.find? (fun p => p.1 == k)).map Prod.snd

/-- Models `k in m`. -/
def dictMember {α : Type} (m : List (Nat × α)) (k : Nat) : Bool :=
  m.any (fun p => p.1 == k)

/-- Models `m[k] = v`: CPython keeps the position of an existing key and appends a
fresh key at the end. -/
def dictInsert {α : Type} (m : List (Nat × α)) (k : Nat) (v : α) : List (Nat × α) :=
  if dictMember m k then m.map (fun p => if p.1 == k then (k, v) else p)
  else m ++ [(k, v)]

/-- Models `m.pop(k, None)` (the removal part; with unique keys removing every
binding of `k` coincides with removing the first). -/
def dictPop {α : Type} (m : List (Nat × α)) (k : Nat) : List (Nat × α) :=
  m.filter (fun p => ¬ p.1 = k)

/-- The keys of a dict, in order. -/
def dictKeys {α : Type} (m : List (Nat × α)) : List Nat := m.map Prod.fst

/-! ## SR Receiver (`hudp/reliable.py`, class `SRReceiver`) -/

/-- Mutable state of `SRReceiver`: `_expected`, `_buffer : seq -> (payload,
first_seen_ms)` in insertion order, `_hole_since_ms`, and the configuration
fields `window_size`, `max_buffer`, `skip_threshold_ms`. -/
structure RxState where
  expected : Nat
  buffer : List (Nat × (List Nat × Int))
  hole_since_ms : Option Int
  window_size : Nat
  max_buffer : Nat
  skip_threshold_ms : Int
deriving DecidableEq

/-- Models `SRReceiver.__init__`: `expected = 0`, empty buffer, no hole;
`max_buffer or (2 * window_size)` treats both `None` and `0` as absent. -/
def SRReceiver_init (window_size : Nat) (max_buffer : Option Nat) (skip_threshold_ms : Int) :
    RxState :=
  { expected := 0
    buffer := []
    hole_since_ms := none
    window_size := window_size
    max_buffer := match max_buffer with
                  | some m => if m = 0 then 2 * window_size else m
                  | none => 2 * window_size
    skip_threshold_ms := skip_threshold_ms }

/-- The drain loop `while self._expected in self._buffer: ...` of `on_data`
and `_timer_loop`: pop the expected entry, record the delivery `(expected,
payload)`, advance `expected`.  Each iteration removes a key, so fuel equal to
the buffer size runs the loop to completion. -/
def rxDrain : Nat → Nat → List (Nat × (List Nat × Int)) →
    Nat × List (Nat × (List Nat × Int)) × List (Nat × List Nat)
  | 0, e, buf => (e, buf, [])
  | fuel + 1, e, buf =>
    match dictGet buf e with
    | some pv =>
        let r := rxDrain fuel (u16_incr e) (dictPop buf e)
        (r.1, r.2.1, (e, pv.1) :: r.2.2)
    | none => (e, buf, [])

/-- Result of the locked section of `SRReceiver.on_data`: the new state, the
ACK handed to the `send_ack` callback (at most one per call), and the
`deliver_list` handed to `deliver_in_order` after the lock is released. -/
structure RxCore where
  state : RxState
  ack : Option (Nat × Int)
  deliver_list : List (Nat × List Nat)
deriving DecidableEq

/-- Models `SRReceiver.on_data(seq, payload)` (the locked section, lines 383-438):
classification of `seq`, buffer/`expected` updates, and the single optional
ACK `(seq, max_buffer - len(buffer))` computed after the updates.
`should_ack` is `u16_in_window(seq, u16(expected - window_size),
window_size * 2)` and the ACK is emitted only when the packet was
`processed_successfully`. -/
def on_data (S : RxState) (seq : Nat) (payload : List Nat) (now : Int) : RxCore :=
  let should_ack := u16_in_window seq (u16_sub S.expected S.window_size) (S.window_size * 2)
  let step :=
    if u16_in_window seq S.expected S.window_size then
      if seq = S.expected then
        let d := rxDrain S.buffer.length (u16_incr S.expected) S.buffer
        ({ S with expected := d.1, buffer := d.2.1, hole_since_ms := none },
         (seq, payload) :: d.2.2, true)
      else if 0 < u16_distance S.expected seq then
        let ins :=
          if !(dictMember S.buffer seq) then
            if S.buffer.length < S.max_buffer then
              (dictInsert S.buffer seq (payload, now), true)
            else (S.buffer, false)
          else (S.buffer, true)
        let hole := match S.hole_since_ms with
                    | none => some now
                    | some h => some h
        ({ S with buffer := ins.1, hole_since_ms := hole }, [], ins.2)
      else (S, ([] : List (Nat × List Nat)), false)
    else if seq < S.expected then (S, [], true)
    else (S, [], false)
  let S1 := step.1
  { state := S1
    ack := if should_ack ∧ step.2.2 then
             some (seq, (S1.max_buffer : Int) - (S1.buffer.length : Int))
           else none
    deliver_list := step.2.1 }

/-- One body of `SRReceiver._timer_loop` (the locked section): when a hole has
been pending for at least `skip_threshold_ms`, skip `expected`, drain newly
deliverable entries, and re-arm `hole_since_ms` when a gap remains before a
non-empty buffer.  Returns the new state and the deliveries made after the
lock. -/
def rx_tick (S : RxState) (now : Int) : RxState × List (Nat × List Nat) :=
  match S.hole_since_ms with
  | some h =>
      if S.skip_threshold_ms ≤ now - h then
        let d := rxDrain S.buffer.length (u16_incr S.expected) S.buffer
        let hole := if d.2.1 ≠ [] ∧ ¬ dictMember d.2.1 d.1 then some now else none
        ({ S with expected := d.1, buffer := d.2.1, hole_since_ms := hole }, d.2.2)
      else (S, [])
  | none => (S, [])

/-- Models `SRReceiver.on_data` when the `send_ack` callback raises.  In the source
the callback runs inside the lock with no `try` (line 438), after every state
mutation, and the `deliver_in_order` loop runs only after the `with` block:
an ACK-callback exception therefore escapes `on_data`, keeps the state
mutations (the object was updated in place), and suppresses the pending
deliveries.  The final `Bool` records whether an exception escaped. -/
def on_data_ack_cb_raises (S : RxState) (seq : Nat) (payload : List Nat) (now : Int) :
    RxState × List (Nat × List Nat) × Bool :=
  let c := on_data S seq payload now
  match c.ack with
  | some _ => (c.state, [], true)
  | none => (c.state, c.deliver_list, false)

/-! ## SR Sender (`hudp/reliable.py`, class `SRSender`) -/

/-- An in-flight entry (`_TxItem`). -/
structure TxItem where
  seq : Nat
  payload : List Nat
  first_send_ms : Int
  last_send_ms : Int
  retries : Nat
  retransmitted : Bool
deriving DecidableEq

/-- Models `self._min_rto = 200.0`. -/
def MIN_RTO : ℚ := 200

/-- Models `self._max_rto = 4000.0`. -/
def MAX_RTO : ℚ := 4000

/-- Models `self._alpha = 1/8`. -/
def RTO_ALPHA : ℚ := 1 / 8

/-- Models `self._beta = 1/4`. -/
def RTO_BETA : ℚ := 1 / 4

/-- RTT-estimator fields of `SRSender`: `_avg_rtt` (the smoothed RTT the
estimator actually uses), `_rttvar`, `_rto` and `_initial_rto`. -/
structure RtoState where
  avg_rtt : Option ℚ
  rttvar : Option ℚ
  rto : ℚ
  initial_rto : ℚ
deriving DecidableEq

/-- Models `SRSender._update_rto(rtt_ms)`.  When `_avg_rtt` is set, `_rttvar` was set
by the first sample as well, so the `none` fallback in the `some` branch is
never exercised (Python would raise a `TypeError` there). -/
def update_rto (E : RtoState) (rtt_ms : Int) : RtoState :=
  let rtt : ℚ := (rtt_ms : ℚ)
  match E.avg_rtt with
  | none =>
      let candidate := max E.initial_rto (2 * rtt)
      { E with avg_rtt := some rtt, rttvar := some (rtt / 2),
               rto := max MIN_RTO (min candidate MAX_RTO) }
  | some avg =>
      let v := match E.rttvar with
               | some v => v
               | none => 0
      let v1 := (1 - RTO_BETA) * v + RTO_BETA * |avg - rtt|
      let avg1 := (1 - RTO_ALPHA) * avg + RTO_ALPHA * rtt
      let candidate := max E.initial_rto (2 * avg1)
      { E with avg_rtt := some avg1, rttvar := some v1,
               rto := max MIN_RTO (min candidate MAX_RTO) }

/-- Models `SRSender._backoff_rto`: `rto = min(rto * 2, max_rto)`. -/
def backoff_rto (E : RtoState) : RtoState :=
  { E with rto := min (E.rto * 2) MAX_RTO }

/-- Mutable state of `SRSender` relevant to the protocol core (the pacing
queue, condition variable and threads are concurrency plumbing that only
forwards packets to `on_send_raw` and is not part of any claim modelled
here). -/
structure SenderState where
  window_size : Nat
  max_retries : Nat
  base : Nat
  next_seq : Nat
  out : List (Nat × TxItem)
  est : RtoState
  retransmissions : Nat
  dupacks : Nat
  peer_rwnd : ℚ
  cwnd : ℚ
  ssthresh : ℚ
deriving DecidableEq

/-- Models `self._dupacks_threshold = 3`. -/
def DUPACK_THRESHOLD : Nat := 3

/-- Models `self._INITIAL_CWND = 10.0`. -/
def INITIAL_CWND : ℚ := 10

/-- Models `SRSender.__init__(window_size, rto_ms, ...)`: `base = next_seq = 0`,
empty flight table, `peer_rwnd = float(window_size)`, `cwnd = 10`,
`ssthresh = float(window_size)`. -/
def SRSender_init (window_size : Nat) (rto_ms : ℚ) (max_retries : Nat) : SenderState :=
  { window_size := window_size
    max_retries := max_retries
    base := 0
    next_seq := 0
    out := []
    est := { avg_rtt := none, rttvar := none, rto := rto_ms, initial_rto := rto_ms }
    retransmissions := 0
    dupacks := 0
    peer_rwnd := (window_size : ℚ)
    cwnd := INITIAL_CWND
    ssthresh := (window_size : ℚ) }

/-- Python `int(q)`: truncation toward zero. -/
def pyInt (q : ℚ) : Int := if 0 ≤ q then ⌊q⌋ else ⌈q⌉

/-- Models `SRSender._get_effective_window`: `int(min(window_size, peer_rwnd, cwnd))`. -/
def get_effective_window (S : SenderState) : Int :=
  pyInt (min ((S.window_size : ℚ)) (min S.peer_rwnd S.cwnd))

/-- Models `SRSender.send(payload)`: when the flight table is smaller than the
effective window, assign `seq = next_seq`, advance `next_seq`, insert a fresh
in-flight entry (`retries = 0`, `retransmitted = False`) and return the
sequence; the packet is then queued for the pacer.  `none` models the
window-full path (blocking that ends in a `WouldBlock` timeout). -/
def SRSender_send (S : SenderState) (payload : List Nat) (now : Int) :
    Option (Nat × SenderState) :=
  if (S.out.length : Int) < get_effective_window S then
    let seq := S.next_seq
    some (seq,
      { S with
        next_seq := u16_incr S.next_seq
        out := dictInsert S.out seq
          { seq := seq, payload := payload, first_send_ms := now,
            last_send_ms := now, retries := 0, retransmitted := false } })
  else none

/-- The base-slide loop `while base != next_seq and base not in out`.  Each
iteration moves `base` one step toward `next_seq` on the 2^16 ring, so
`u16_distance base next_seq` steps of fuel always reach the loop's exit
condition. -/
def slideBaseAux (n : Nat) (out : List (Nat × TxItem)) : Nat → Nat → Nat
  | 0, b => b
  | fuel + 1, b =>
      if b = n ∨ dictMember out b then b
      else slideBaseAux n out fuel (u16_incr b)

/-- Models `while self._base != self._next_seq and self._base not in self._out:
self._base = u16_incr(self._base, 1)`. -/
def slideBase (b n : Nat) (out : List (Nat × TxItem)) : Nat :=
  slideBaseAux n out (u16_distance b n) b

/-- Result of `SRSender.ack`: the new state, the return value, the RTT sample
reported through `_update_rto`/`on_rtt` (if any), and the packet handed to the
pacing queue by fast retransmit (if any). -/
structure AckResult where
  state : SenderState
  was_new_ack : Bool
  rtt_sample : Option Int
  fast_retransmit : Option (Nat × List Nat)
deriving DecidableEq

/-- The body of `SRSender.ack` after the `peer_rwnd` update (lines 224-257).
A new ACK pops the entry, samples RTT only when `retries == 0`, grows `cwnd`,
resets `dupacks` and slides `base`; a duplicate ACK counts toward fast
retransmit, which on the third duplicate (with `base` in flight) halves
`ssthresh`, sets the `base` entry's `retransmitted` flag and re-queues it. -/
def ack_locked (S0 : SenderState) (ack_seq : Nat) (now : Int) : AckResult :=
  match dictGet S0.out ack_seq with
  | some item =>
      let out1 := dictPop S0.out ack_seq
      let sample : Option Int :=
        if item.retries = 0 then some (max 1 (now - item.first_send_ms)) else none
      let cwnd1 := if S0.cwnd < S0.ssthresh then S0.cwnd + 1 else S0.cwnd + 1 / S0.cwnd
      let base1 := slideBase S0.base S0.next_seq out1
      let est1 := match sample with
                  | some r => update_rto S0.est r
                  | none => S0.est
      { state := { S0 with out := out1, cwnd := cwnd1, dupacks := 0,
                           base := base1, est := est1 }
        was_new_ack := true
        rtt_sample := sample
        fast_retransmit := none }
  | none =>
      let dup := S0.dupacks + 1
      match dictGet S0.out S0.base with
      | some bitem =>
          if DUPACK_THRESHOLD ≤ dup then
            let ss := max 10 (S0.cwnd / 2)
            let bitem1 := { bitem with last_send_ms := now, retransmitted := true }
            { state := { S0 with out := dictInsert S0.out S0.base bitem1,
                                 ssthresh := ss, cwnd := ss,
                                 retransmissions := S0.retransmissions + 1,
                                 dupacks := 0 }
              was_new_ack := false
              rtt_sample := none
              fast_retransmit := some (bitem.seq, bitem.payload) }
          else
            { state := { S0 with dupacks := dup }, was_new_ack := false,
              rtt_sample := none, fast_retransmit := none }
      | none =>
          { state := { S0 with dupacks := dup }, was_new_ack := false,
            rtt_sample := none, fast_retransmit := none }

/-- Models `SRSender.ack(ack_seq, peer_rwnd)` (lines 213-267): update the
peer-advertised window when one was passed, then run the locked body. -/
def SRSender_ack (S : SenderState) (ack_seq : Nat) (peer_rwnd : Option Int) (now : Int) :
    AckResult :=
  ack_locked (match peer_rwnd with
              | some w => { S with peer_rwnd := (w : ℚ) }
              | none => S) ack_seq now

/-- One pass of the timer loop over the flight table in iteration order: the
mutated table (timed-out entries with `retries < max_retries` get
`retries + 1`, `last_send_ms = now`, `retransmitted = True`), the packets
queued for resend, and the sequences to drop. -/
def scan_out (max_retries : Nat) (rto_ms now : Int) :
    List (Nat × TxItem) → List (Nat × TxItem) × List (Nat × List Nat) × List Nat
  | [] => ([], [], [])
  | (k, it) :: rest =>
      let r := scan_out max_retries rto_ms now rest
      if rto_ms ≤ now - it.last_send_ms then
        if it.retries < max_retries then
          let it1 := { it with retries := it.retries + 1, last_send_ms := now,
                               retransmitted := true }
          ((k, it1) :: r.1, (it1.seq, it1.payload) :: r.2.1, r.2.2)
        else ((k, it) :: r.1, r.2.1, k :: r.2.2)
      else ((k, it) :: r.1, r.2.1, r.2.2)

/-- Result of one body of `SRSender._timer_loop`. -/
structure TickResult where
  state : SenderState
  to_resend : List (Nat × List Nat)
  to_drop : List Nat
deriving DecidableEq

/-- One body of `SRSender._timer_loop` (lines 287-326, the locked section plus
the callback loops): scan with `rto_ms = int(self._rto)`, pop the dropped
sequences, slide `base`, and — when anything was retransmitted — apply the
congestion response (`ssthresh = max(10, cwnd/2)`, `cwnd = INITIAL_CWND`) and
the exponential RTO backoff. -/
def timer_tick (S : SenderState) (now : Int) : TickResult :=
  let rto_ms : Int := pyInt S.est.rto
  let sc := scan_out S.max_retries rto_ms now S.out
  let out1 := sc.1.filter (fun p => decide (p.1 ∉ sc.2.2))
  let base1 := slideBase S.base S.next_seq out1
  let S1 := { S with out := out1, base := base1,
                     retransmissions := S.retransmissions + sc.2.1.length }
  if sc.2.1 ≠ [] then
    { state := { S1 with ssthresh := max 10 (S1.cwnd / 2), cwnd := INITIAL_CWND,
                         est := backoff_rto S1.est }
      to_resend := sc.2.1
      to_drop := sc.2.2 }
  else
    { state := S1, to_resend := sc.2.1, to_drop := sc.2.2 }

/-- Models `SRSender._timer_loop` when the `on_drop` callback raises.  The state
mutations and the resend queueing happen before the drop callbacks (lines
308-324), and the `for s in to_drop: self.on_drop(s)` loop has no `try`: an
exception on the first drop escapes the worker body, after which the timer
thread is dead.  Returns the state (mutations retained), the resends queued,
the drop callbacks actually invoked, and whether an exception escaped. -/
def timer_tick_drop_cb_raises (S : SenderState) (now : Int) :
    SenderState × List (Nat × List Nat) × List Nat × Bool :=
  let r := timer_tick S now
  match r.to_drop with
  | [] => (r.state, r.to_resend, [], false)
  | d :: _ => (r.state, r.to_resend, [d], true)

/-- Events of a sender execution: application sends, inbound ACKs, timer
ticks, each carrying the clock value at which it runs. -/
inductive SEvent where
  | ev_send (payload : List Nat) (now : Int)
  | ev_ack (ack_seq : Nat) (peer_rwnd : Option Int) (now : Int)
  | ev_tick (now : Int)

/-- A sender execution: final state plus the RTT samples reported through the
`on_rtt` callback, in order, as `(ack_seq, rtt_ms)`. -/
structure RunResult where
  state : SenderState
  rtts : List (Nat × Int)
deriving DecidableEq

/-- Run a list of sender events.  A send that finds the window full leaves the
state unchanged (the blocking `send` returned `WouldBlock`). -/
def run_events : SenderState → List SEvent → RunResult
  | S, [] => { state := S, rtts := [] }
  | S, SEvent.ev_send p now :: rest =>
      match SRSender_send S p now with
      | some (_, S1) => run_events S1 rest
      | none => run_events S rest
  | S, SEvent.ev_ack a w now :: rest =>
      let r := SRSender_ack S a w now
      let tail := run_events r.state rest
      { tail with rtts := (match r.rtt_sample with
                           | some s => [(a, s)]
                           | none => []) ++ tail.rtts }
  | S, SEvent.ev_tick now :: rest =>
      run_events (timer_tick S now).state rest

/-! ## Multiplexer send paths (`hudp/game_net_api.py`) -/

/-- The unreliable branch of `GameNetAPI.send`: read the unbounded counter
`_send_seq_unreliable`, increment it, and pack the header (which raises
`struct.error` once the sequence no longer fits `u16`; modelled as `none`).
Returns (assigned seq, new counter, packed header). -/
def send_unreliable (counter ts : Nat) : Nat × Nat × Option (List Nat) :=
  (counter, counter + 1, pack_header UNRELIABLE counter ts)

/-- The value of `_send_seq_unreliable` after `k` unreliable sends. -/
def unreliable_counter_after : Nat → Nat
  | 0 => 0
  | k + 1 => (send_unreliable (unreliable_counter_after k) 0).2.1

/-- One iteration of `GameNetAPI._recv_loop` as far as the peer address is
concerned: `if not self.peer_addr: self.peer_addr = addr`. -/
def recv_loop_step {A : Type} (peer : Option A) (addr : A) : Option A :=
  match peer with
  | none => some addr
  | some p => some p

/-- The peer address after the receive loop has processed a list of inbound
datagram source addresses. -/
def recv_loop_run {A : Type} (peer : Option A) (addrs : List A) : Option A :=
  addrs.foldl recv_loop_step peer

/-- Models `GameNetAPI._send_internal` sends to `self.peer_addr`; `_sr_on_send_raw`
and `_sr_send_ack` return early when no peer is known, so the destination of
every outbound datagram is exactly the current peer address. -/
def send_internal_dest {A : Type} (peer : Option A) : Option A := peer

/-! ## Invariant predicates and concrete traces used by the claims -/

/-- Receiver buffer invariant: `expected` is a `u16`, the buffer never exceeds
`max_buffer`, keys are unique, and every buffered sequence is a `u16` strictly
ahead of `expected` inside the receive window. -/
def RInv (S : RxState) : Prop :=
  S.expected < U16_MOD ∧
  S.buffer.length ≤ S.max_buffer ∧
  (dictKeys S.buffer).Nodup ∧
  ∀ s ∈ dictKeys S.buffer, s < U16_MOD ∧ 0 < u16_distance S.expected s ∧
    u16_in_window s S.expected S.window_size = true

/-- The exact condition under which `SRReceiver.on_data(seq, _)` emits an ACK:
`seq` lies in the doubled window `[expected - window_size,
expected + window_size)` mod 2^16, and the arrival was processed successfully —
in order, a duplicate of a buffered packet, a buffered future packet with
space left, or (numerically, as the code compares plain integers) an old
`seq < expected`. -/
def ackCond (S : RxState) (seq : Nat) : Bool :=
  u16_in_window seq (u16_sub S.expected S.window_size) (S.window_size * 2) &&
  (if u16_in_window seq S.expected S.window_size then
     seq == S.expected || dictMember S.buffer seq || decide (S.buffer.length < S.max_buffer)
   else decide (seq < S.expected))

/-- Sender well-formedness: `base`, `next_seq` and all in-flight keys are
`u16` values and keys are unique. -/
def SWF (S : SenderState) : Prop :=
  S.base < U16_MOD ∧ S.next_seq < U16_MOD ∧ (dictKeys S.out).Nodup ∧
  ∀ s ∈ dictKeys S.out, s < U16_MOD

/-- Sender window invariant: every in-flight sequence lies in
`[base, next_seq)` modulo 2^16. -/
def SInv (S : SenderState) : Prop :=
  ∀ s ∈ dictKeys S.out, u16_in_window s S.base (u16_distance S.base S.next_seq) = true

/-- Trace driving the sender into fast retransmit: one send, then three
duplicate ACKs for a sequence that was never in flight. -/
def c4Trace : List SEvent :=
  [SEvent.ev_send [5] 0, SEvent.ev_ack 9 none 0,
   SEvent.ev_ack 9 none 0, SEvent.ev_ack 9 none 0]

/-- The in-flight entry created for sequence `k` by a send of the wrap-around
execution (all clock reads are 0 and payloads empty). -/
def c5ItemK (k : Nat) : TxItem :=
  { seq := k, payload := [], first_send_ms := 0, last_send_ms := 0,
    retries := 0, retransmitted := false }

/-- The stuck in-flight entry for sequence 0. -/
def c5Item0 : TxItem := c5ItemK 0

/-- One accepted send of the wrap-around execution (empty payload, clock 0);
when the window is full the state is unchanged. -/
def sendStep (S : SenderState) : SenderState :=
  match SRSender_send S [] 0 with
  | some pr => pr.2
  | none => S

/-- One round of the window-wrap execution: a send (which is accepted — the
flight table holds only the stuck sequence 0) immediately acknowledged, so
that `next_seq` keeps advancing while sequence 0 stays in flight. -/
def c5Step (k : Nat) (S : SenderState) : SenderState :=
  (SRSender_ack (sendStep S) k (some 64) 0).state

/-- State after the initial send of sequence 0 followed by `k` rounds
`send; ack` (round `i` acknowledges the sequence `i` it just sent). -/
def c5State : Nat → SenderState
  | 0 => sendStep (SRSender_init 64 200 10)
  | k + 1 => c5Step (k + 1) (c5State k)

/-- After 65534 rounds, two more accepted sends: the first assigns sequence
65535, wrapping `next_seq` to 0; the second assigns sequence 0 — overwriting
the still-unacknowledged in-flight entry 0. -/
def c5Final : SenderState :=
  sendStep (sendStep (c5State 65534))

/-! ## Helper lemmas -/

theorem dictMember_iff {α : Type} (m : List (Nat × α)) (k : Nat) :
    dictMember m k = true ↔ k ∈ dictKeys m := by
  simp only [dictMember, dictKeys, List.any_eq_true, List.mem_map, beq_iff_eq]

theorem u16_distance_lt (a b : Nat) : u16_distance a b < U16_MOD := by
  unfold u16_distance U16_MOD; omega

theorem u16_incr_lt (a : Nat) : u16_incr a < U16_MOD := by
  unfold u16_incr U16_MOD; omega

theorem u16_distance_eq_zero {a b : Nat} (ha : a < U16_MOD) (hb : b < U16_MOD) :
    u16_distance a b = 0 ↔ a = b := by
  unfold u16_distance at *; unfold U16_MOD at *; omega

theorem u16_distance_incr {a b : Nat} (h : 0 < u16_distance a b) :
    u16_distance (u16_incr a) b = u16_distance a b - 1 := by
  unfold u16_distance u16_incr at *; unfold U16_MOD at *; omega

theorem u16_distance_self (a : Nat) : u16_distance a a = 0 := by
  unfold u16_distance U16_MOD; omega

/-! ## Claim theorems -/

/-- C1: the claim that ACKs are 5-byte `tag|ack_seq|recv_window` packets which
`pack_ack`/`unpack_ack` round-trip fails on the code: `pack_ack` has a single
parameter and emits a 3-byte packet with no window field, so the
multiplexer's two-argument call in `_sr_send_ack` raises `TypeError`, and
`_handle_ack`'s destructuring of the single integer returned by `unpack_ack`
raises `TypeError` as well. -/
theorem C1_ack_wire_format_eval :
    sr_send_ack_packet 0 5 = Except.error PyErr.typeError ∧
    pack_ack 513 = some [2, 2, 1] ∧
    (pack_ack 513).map List.length = some 3 ∧
    handle_ack [2, 2, 1] = Except.error PyErr.typeError := by
  refine ⟨rfl, by decide, by decide, rfl⟩

/-- C2: a datagram shorter than the 7-byte header with a non-ACK shape, and a
datagram with an unknown tag, are silently discarded, but the claim that *no*
byte string can crash `_internal_process_packet` fails: the well-formed
3-byte ACK `b"\x02\x00\x00"` (exactly what `pack_ack` produces) raises an
uncaught `TypeError` inside `_handle_ack`. -/
theorem C2_process_packet_eval :
    internal_process_packet [2, 0, 0] = Except.error PyErr.typeError ∧
    internal_process_packet [] = Except.ok none ∧
    internal_process_packet [0, 1] = Except.ok none ∧
    internal_process_packet [9, 0, 7, 0, 0, 0, 0, 42] = Except.ok none := by
  refine ⟨rfl, rfl, rfl, rfl⟩

theorem unreliable_counter_after_eq (k : Nat) : unreliable_counter_after k = k := by
  induction k with
  | zero => rfl
  | succ n ih => simp [unreliable_counter_after, send_unreliable, ih]

/-- C9: the claim that the unreliable sequence counter wraps modulo 2^16 and
header packing always succeeds fails on the code: `_send_seq_unreliable` is
incremented without masking, so after 65536 unreliable sends the counter is
65536 and `pack_header(UNRELIABLE, 65536)` raises `struct.error` ("'H' format
requires 0 <= number <= 65535") instead of wrapping to 0. -/
theorem C9_unreliable_counter_overflow_eval :
    unreliable_counter_after 65536 = 65536 ∧
    (send_unreliable 65536 0).2.2 = none ∧
    (send_unreliable 65535 0).2.2 = some [1, 255, 255, 0, 0, 0, 0] := by
  refine ⟨unreliable_counter_after_eq 65536, by decide, by decide⟩

/-- C10: with no peer set, the receive loop adopts the source address of the
first inbound datagram as the peer address, keeps it across any sequence of
later datagrams, and every outbound send (`_send_internal`, used for data and
ACKs alike) is directed at exactly that learned address. -/
theorem C10_peer_address_learning {A : Type} (a : A) (rest : List A) :
    recv_loop_run (none : Option A) (a :: rest) = some a ∧
    send_internal_dest (recv_loop_run (none : Option A) (a :: rest)) = some a := by
  have hsome : ∀ (l : List A), recv_loop_run (some a) l = some a := by
    intro l
    induction l with
    | nil => rfl
    | cons x xs ih => simpa [recv_loop_run, recv_loop_step] using ih
  have h1 : recv_loop_run (none : Option A) (a :: rest) = recv_loop_run (some a) rest := by
    simp [recv_loop_run, recv_loop_step]
  exact ⟨h1.trans (hsome rest), by simp [send_internal_dest, h1.trans (hsome rest)]⟩

/-- C4: Karn's rule fails on the code.  After one send and three duplicate
ACKs, fast retransmit resends sequence 0 and sets its `retransmitted` flag
while leaving `retries` at 0; the later genuine ACK of sequence 0 then passes
the `retries == 0` test in `SRSender.ack` and feeds `max(1, now -
first_send_ms) = 50` to `_update_rto` and the `on_rtt` callback — an RTT
sample originating from an entry whose retransmitted flag is set. -/
theorem C4_fast_retransmit_rtt_sample_eval :
    (dictGet (run_events (SRSender_init 64 200 10) c4Trace).state.out 0).map
        TxItem.retransmitted = some true ∧
    (dictGet (run_events (SRSender_init 64 200 10) c4Trace).state.out 0).map
        TxItem.retries = some 0 ∧
    (run_events (SRSender_init 64 200 10)
        (c4Trace ++ [SEvent.ev_ack 0 none 50])).rtts = [(0, 50)] := by
  refine ⟨by decide, by decide, by decide⟩

/-- C8 counterexample: callback failures are not isolated.  For the receiver
state with `expected = 0` and an empty buffer, an in-order arrival of
sequence 0 normally delivers `(0, [7])`; when the ACK callback raises, the
exception escapes `on_data` (it is invoked inside the lock with no `try`) and
the pending in-order delivery is lost — not the behaviour of a callback that
returned normally. -/
theorem C8_callback_exception_cex :
    (on_data_ack_cb_raises (SRReceiver_init 4 none 0) 0 [7] 0).2.2 = true ∧
    (on_data_ack_cb_raises (SRReceiver_init 4 none 0) 0 [7] 0).2.1 = [] ∧
    (on_data (SRReceiver_init 4 none 0) 0 [7] 0).deliver_list = [(0, [7])] := by
  refine ⟨by decide, by decide, by decide⟩

/-- C8 amended: the protocol-state mutations are retained when a callback
raises (they all precede the callback), so state is not corrupted; but the
exception itself is only isolated for the delivery callback.  An ACK-callback
exception escapes `on_data` exactly when an ACK is emitted and then suppresses
the pending deliveries; a drop-callback exception escapes the sender's timer
body exactly when a drop occurred, after the resends were queued. -/
theorem C8_callback_isolation_amended (S : RxState) (seq : Nat) (p : List Nat) (now : Int)
    (T : SenderState) (tnow : Int) :
    (on_data_ack_cb_raises S seq p now).1 = (on_data S seq p now).state ∧
    ((on_data_ack_cb_raises S seq p now).2.2 = true ↔ (on_data S seq p now).ack ≠ none) ∧
    ((on_data_ack_cb_raises S seq p now).2.2 = true →
      (on_data_ack_cb_raises S seq p now).2.1 = []) ∧
    (timer_tick_drop_cb_raises T tnow).1 = (timer_tick T tnow).state ∧
    (timer_tick_drop_cb_raises T tnow).2.1 = (timer_tick T tnow).to_resend ∧
    ((timer_tick_drop_cb_raises T tnow).2.2.2 = true ↔ (timer_tick T tnow).to_drop ≠ []) := by
  unfold on_data_ack_cb_raises timer_tick_drop_cb_raises
  rcases hack : (on_data S seq p now).ack with _ | a <;>
    rcases hdrop : (timer_tick T tnow).to_drop with _ | ⟨d, ds⟩ <;>
      simp [hack, hdrop]

/-- C8 witness: the amended theorem applied at a concrete receiver state,
arrival and sender state. -/
theorem C8_callback_isolation_witness :
    (on_data_ack_cb_raises (SRReceiver_init 4 none 0) 0 [7] 0).1 =
      (on_data (SRReceiver_init 4 none 0) 0 [7] 0).state ∧
    (timer_tick_drop_cb_raises (SRSender_init 64 200 10) 0).1 =
      (timer_tick (SRSender_init 64 200 10) 0).state :=
  ⟨(C8_callback_isolation_amended (SRReceiver_init 4 none 0) 0 [7] 0
      (SRSender_init 64 200 10) 0).1,
   (C8_callback_isolation_amended (SRReceiver_init 4 none 0) 0 [7] 0
      (SRSender_init 64 200 10) 0).2.2.2.1⟩

/-- C3 counterexample: the claim that every handled arrival — including a
future in-window arrival hitting a full buffer — emits exactly one ACK fails.
With `window_size = 4`, `max_buffer = 2`: arrivals 1 and 2 are buffered and
ACKed (windows 1 and 0), but arrival 3, future and in-window with the buffer
full, is dropped with *no* ACK. -/
theorem C3_buffer_full_no_ack_cex :
    (on_data (SRReceiver_init 4 (some 2) 0) 1 [] 0).ack = some (1, 1) ∧
    (on_data ((on_data (SRReceiver_init 4 (some 2) 0) 1 [] 0).state) 2 [] 0).ack
      = some (2, 0) ∧
    (on_data ((on_data ((on_data (SRReceiver_init 4 (some 2) 0) 1 [] 0).state)
        2 [] 0).state) 3 [] 0).ack = none := by
  refine ⟨by decide, by decide, by decide⟩

/-- C7: the RTO estimator.  On the first sample `R`: `srtt = R`,
`rttvar = R/2`.  On a subsequent sample: `rttvar = (1 - 1/4) rttvar +
(1/4) |srtt - R|` and then `srtt = (1 - 1/8) srtt + (1/8) R`.  After every
sample the new `rto` equals `max(initial_rto, 2 srtt)` clamped into
`[min_rto, max_rto] = [200, 4000]`. -/
theorem C7_rto_update (E : RtoState) (r : Int) :
    (E.avg_rtt = none →
      (update_rto E r).avg_rtt = some ((r : ℚ)) ∧
      (update_rto E r).rttvar = some ((r : ℚ) / 2)) ∧
    (∀ s v : ℚ, E.avg_rtt = some s → E.rttvar = some v →
      (update_rto E r).rttvar = some ((1 - 1 / 4) * v + 1 / 4 * |s - (r : ℚ)|) ∧
      (update_rto E r).avg_rtt = some ((1 - 1 / 8) * s + 1 / 8 * (r : ℚ))) ∧
    (∀ s1 : ℚ, (update_rto E r).avg_rtt = some s1 →
      (update_rto E r).rto = max MIN_RTO (min (max E.initial_rto (2 * s1)) MAX_RTO)) ∧
    MIN_RTO ≤ (update_rto E r).rto ∧
    (update_rto E r).rto ≤ MAX_RTO := by
  rcases h : E.avg_rtt with _ | s
  · refine ⟨?_, ?_, ?_, ?_, ?_⟩
    · intro _
      exact ⟨by simp [update_rto, h], by simp [update_rto, h]⟩
    · intro s v hs _
      cases hs
    · intro s1 hs1
      simp only [update_rto, h, Option.some_inj] at hs1 ⊢
      rw [← hs1]
    · simp only [update_rto, h]
      exact le_max_left _ _
    · simp only [update_rto, h]
      exact max_le (by norm_num [MIN_RTO, MAX_RTO]) (min_le_right _ _)
  · refine ⟨?_, ?_, ?_, ?_, ?_⟩
    · intro hn
      cases hn
    · intro s0 v hs0 hv0
      obtain rfl : s = s0 := Option.some_inj.mp hs0
      exact ⟨by simp [update_rto, h, hv0, RTO_BETA],
             by simp [update_rto, h, RTO_ALPHA]⟩
    · intro s1 hs1
      simp only [update_rto, h, Option.some_inj] at hs1 ⊢
      rw [← hs1]
    · simp only [update_rto, h]
      exact le_max_left _ _
    · simp only [update_rto, h]
      exact max_le (by norm_num [MIN_RTO, MAX_RTO]) (min_le_right _ _)

/-- C7 witness: the estimator applied to the first sample `R = 100` from the
initial state (`initial_rto = 200`): `srtt = 100`, `rttvar = 50`,
`rto = max(200, min(max(200, 200), 4000)) = 200`. -/
theorem C7_rto_update_witness :
    (update_rto { avg_rtt := none, rttvar := none, rto := 200, initial_rto := 200 }
        100).avg_rtt = some 100 ∧
    (update_rto { avg_rtt := none, rttvar := none, rto := 200, initial_rto := 200 }
        100).rttvar = some 50 ∧
    (update_rto { avg_rtt := none, rttvar := none, rto := 200, initial_rto := 200 }
        100).rto = 200 := by
  obtain ⟨h1, _, h3, _, _⟩ :=
    C7_rto_update { avg_rtt := none, rttvar := none, rto := 200, initial_rto := 200 } 100
  obtain ⟨ha, hv⟩ := h1 rfl
  refine ⟨by simpa using ha, by rw [hv]; norm_num, ?_⟩
  have hr := h3 ((100 : Int) : ℚ) ha
  rw [hr]
  norm_num [MIN_RTO, MAX_RTO]

theorem dictGet_none_iff {α : Type} (m : List (Nat × α)) (k : Nat) :
    dictGet m k = none ↔ k ∉ dictKeys m := by
  simp only [dictGet, Option.map_eq_none', List.find?_eq_none, dictKeys, List.mem_map,
    beq_iff_eq]
  constructor
  · rintro h ⟨p, hp, rfl⟩
    exact h p hp rfl
  · rintro h p hp he
    exact h ⟨p, hp, he⟩

theorem mem_dictKeys_of_dictGet {α : Type} {m : List (Nat × α)} {k : Nat} {v : α}
    (h : dictGet m k = some v) : k ∈ dictKeys m := by
  by_contra hmem
  rw [(dictGet_none_iff m k).mpr hmem] at h
  cases h

theorem mem_dictKeys_pop {α : Type} (m : List (Nat × α)) (k s : Nat) :
    s ∈ dictKeys (dictPop m k) ↔ s ∈ dictKeys m ∧ s ≠ k := by
  simp only [dictPop, dictKeys, List.mem_map, List.mem_filter, decide_eq_true_eq]
  constructor
  · rintro ⟨p, ⟨hp, hk⟩, rfl⟩
    exact ⟨⟨p, hp, rfl⟩, hk⟩
  · rintro ⟨⟨p, hp, rfl⟩, hs⟩
    exact ⟨p, ⟨hp, hs⟩, rfl⟩

theorem nodup_dictKeys_pop {α : Type} (m : List (Nat × α)) (k : Nat)
    (h : (dictKeys m).Nodup) : (dictKeys (dictPop m k)).Nodup :=
  ((List.filter_sublist m).map Prod.fst).nodup h

theorem dictPop_length_le {α : Type} (m : List (Nat × α)) (k : Nat) :
    (dictPop m k).length ≤ m.length :=
  List.length_filter_le _ m

theorem dictPop_length_lt {α : Type} (m : List (Nat × α)) (k : Nat)
    (h : k ∈ dictKeys m) : (dictPop m k).length < m.length := by
  rw [dictPop, List.length_filter_lt_length_iff_exists]
  simp only [dictKeys, List.mem_map] at h
  obtain ⟨p, hp, rfl⟩ := h
  exact ⟨p, hp, by simp⟩

theorem dictKeys_insert_not_mem {α : Type} {m : List (Nat × α)} {k : Nat} {v : α}
    (h : dictMember m k = false) : dictKeys (dictInsert m k v) = dictKeys m ++ [k] := by
  simp [dictInsert, h, dictKeys]

theorem dictKeys_insert_mem {α : Type} {m : List (Nat × α)} {k : Nat} {v : α}
    (h : dictMember m k = true) : dictKeys (dictInsert m k v) = dictKeys m := by
  simp only [dictInsert, h, if_true, dictKeys, List.map_map]
  refine List.map_congr_left ?_
  intro p _
  by_cases hp : p.1 = k
  · simp [hp]
  · simp [hp]

theorem dictInsert_length_mem {α : Type} {m : List (Nat × α)} {k : Nat} {v : α}
    (h : dictMember m k = true) : (dictInsert m k v).length = m.length := by
  simp [dictInsert, h]

theorem dictInsert_length_not_mem {α : Type} {m : List (Nat × α)} {k : Nat} {v : α}
    (h : dictMember m k = false) : (dictInsert m k v).length = m.length + 1 := by
  simp [dictInsert, h]

theorem not_mem_of_dictMember_false {α : Type} {m : List (Nat × α)} {k : Nat}
    (h : dictMember m k = false) : k ∉ dictKeys m := by
  intro hmem
  rw [(dictMember_iff m k).mpr hmem] at h
  cases h

/-- Main drain-loop lemma: starting from `e < 2^16` with unique `u16` keys all
at distance `< w` from `e`, the drain preserves those bounds relative to the
final `expected`, never grows the buffer, keeps only original keys, and — when
given fuel at least the buffer size — terminates with `expected` not in the
buffer. -/
theorem rxDrain_inv (w : Nat) :
    ∀ (fuel : Nat) (e : Nat) (buf : List (Nat × (List Nat × Int))),
      e < U16_MOD →
      (dictKeys buf).Nodup →
      (∀ s ∈ dictKeys buf, s < U16_MOD ∧ u16_distance e s < w) →
      (rxDrain fuel e buf).1 < U16_MOD ∧
      (dictKeys (rxDrain fuel e buf).2.1).Nodup ∧
      (rxDrain fuel e buf).2.1.length ≤ buf.length ∧
      (∀ s ∈ dictKeys (rxDrain fuel e buf).2.1,
         s < U16_MOD ∧ u16_distance (rxDrain fuel e buf).1 s < w) ∧
      (buf.length ≤ fuel → (rxDrain fuel e buf).1 ∉ dictKeys (rxDrain fuel e buf).2.1) ∧
      (∀ s ∈ dictKeys (rxDrain fuel e buf).2.1, s ∈ dictKeys buf) := by
  intro fuel
  induction fuel with
  | zero =>
    intro e buf he hnd hkeys
    refine ⟨he, hnd, le_refl _, hkeys, ?_, fun s hs => hs⟩
    intro hlen
    have : buf = [] := List.length_eq_zero.mp (Nat.le_zero.mp hlen)
    subst this
    simp [rxDrain, dictKeys]
  | succ n ih =>
    intro e buf he hnd hkeys
    rcases hget : dictGet buf e with _ | pv
    · have hnotmem : e ∉ dictKeys buf := (dictGet_none_iff buf e).mp hget
      simp only [rxDrain, hget]
      exact ⟨he, hnd, le_refl _, hkeys, fun _ => hnotmem, fun s hs => hs⟩
    · have hmem : e ∈ dictKeys buf := mem_dictKeys_of_dictGet hget
      have hpop_lt : (dictPop buf e).length < buf.length := dictPop_length_lt buf e hmem
      have hkeys1 : ∀ s ∈ dictKeys (dictPop buf e),
          s < U16_MOD ∧ u16_distance (u16_incr e) s < w := by
        intro s hs
        obtain ⟨hsb, hne⟩ := (mem_dictKeys_pop buf e s).mp hs
        obtain ⟨hsM, hsd⟩ := hkeys s hsb
        have hdpos : 0 < u16_distance e s := by
          rcases Nat.eq_zero_or_pos (u16_distance e s) with h0 | h0
          · exact absurd ((u16_distance_eq_zero he hsM).mp h0).symm hne
          · exact h0
        refine ⟨hsM, ?_⟩
        rw [u16_distance_incr hdpos]
        omega
      have ihres := ih (u16_incr e) (dictPop buf e) (u16_incr_lt e)
        (nodup_dictKeys_pop buf e hnd) hkeys1
      simp only [rxDrain, hget]
      refine ⟨ihres.1, ihres.2.1, ?_, ihres.2.2.2.1, ?_, ?_⟩
      · exact le_trans ihres.2.2.1 (le_of_lt hpop_lt)
      · intro hlen
        exact ihres.2.2.2.2.1 (by omega)
      · intro s hs
        exact ((mem_dictKeys_pop buf e s).mp (ihres.2.2.2.2.2 s hs)).1

theorem RInv_not_mem {S : RxState} (h : RInv S) :
    dictMember S.buffer S.expected = false := by
  rcases hm : dictMember S.buffer S.expected
  · rfl
  · exfalso
    have hmem := (dictMember_iff _ _).mp hm
    have hpos := (h.2.2.2 _ hmem).2.1
    rw [u16_distance_self] at hpos
    omega

theorem RInv_set_hole {S : RxState} (h : RInv S) (x : Option Int) :
    RInv { S with hole_since_ms := x } := h

/-- Draining from a position `e1` whose buffered keys are all within
`window_size` yields a state satisfying the receiver invariant, for any value
of the hole timestamp. -/
theorem RInv_drain (S : RxState) (hole : Option Int)
    (hlen : S.buffer.length ≤ S.max_buffer)
    (hnd : (dictKeys S.buffer).Nodup) (e1 : Nat) (he1 : e1 < U16_MOD)
    (hkeys : ∀ s ∈ dictKeys S.buffer, s < U16_MOD ∧ u16_distance e1 s < S.window_size) :
    RInv { S with expected := (rxDrain S.buffer.length e1 S.buffer).1,
                  buffer := (rxDrain S.buffer.length e1 S.buffer).2.1,
                  hole_since_ms := hole } := by
  obtain ⟨hM, hnd2, hlen2, hkeys2, hterm, _⟩ :=
    rxDrain_inv S.window_size S.buffer.length e1 S.buffer he1 hnd hkeys
  refine ⟨hM, le_trans hlen2 hlen, hnd2, ?_⟩
  intro s hs
  obtain ⟨hsM, hsd⟩ := hkeys2 s hs
  have hne : s ≠ (rxDrain S.buffer.length e1 S.buffer).1 := by
    intro hEq
    exact (hterm le_rfl) (hEq ▸ hs)
  have hpos : 0 < u16_distance (rxDrain S.buffer.length e1 S.buffer).1 s := by
    rcases Nat.eq_zero_or_pos (u16_distance (rxDrain S.buffer.length e1 S.buffer).1 s)
      with h0 | h0
    · exact absurd ((u16_distance_eq_zero hM hsM).mp h0).symm hne
    · exact h0
  exact ⟨hsM, hpos, decide_eq_true hsd⟩

/-- C6: the receiver buffer invariants are preserved by `on_data` (for any
`u16` arrival) and by the skip-timer body: `expected` is never a buffer key,
every buffered sequence is strictly ahead of `expected` within the window,
and the buffer never exceeds `max_buffer`. -/
theorem C6_receiver_invariants (S : RxState) (seq : Nat) (p : List Nat) (now : Int)
    (hseq : seq < U16_MOD) (hS : RInv S) :
    RInv (on_data S seq p now).state ∧
    dictMember (on_data S seq p now).state.buffer (on_data S seq p now).state.expected
      = false ∧
    RInv (rx_tick S now).1 ∧
    dictMember (rx_tick S now).1.buffer (rx_tick S now).1.expected = false := by
  obtain ⟨heM, hlen, hnd, hkeys⟩ := hS
  have hS' : RInv S := ⟨heM, hlen, hnd, hkeys⟩
  have hkeys_incr : ∀ s ∈ dictKeys S.buffer,
      s < U16_MOD ∧ u16_distance (u16_incr S.expected) s < S.window_size := by
    intro s hs
    obtain ⟨hsM, hpos, hwin⟩ := hkeys s hs
    have hlt : u16_distance S.expected s < S.window_size := of_decide_eq_true hwin
    refine ⟨hsM, ?_⟩
    rw [u16_distance_incr hpos]
    omega
  have h_on : RInv (on_data S seq p now).state := by
    by_cases h2 : seq = S.expected
    · subst h2
      by_cases h1 : u16_in_window S.expected S.expected S.window_size = true
      · have hdr := RInv_drain S none hlen hnd (u16_incr S.expected)
          (u16_incr_lt _) hkeys_incr
        simpa [on_data, h1] using hdr
      · simpa [on_data, h1, lt_self_iff_false] using hS'
    · by_cases h1 : u16_in_window seq S.expected S.window_size = true
      · by_cases h3 : 0 < u16_distance S.expected seq
        · rcases hm : dictMember S.buffer seq
          · by_cases h5 : S.buffer.length < S.max_buffer
            · have hlen2 : (dictInsert S.buffer seq (p, now)).length ≤ S.max_buffer := by
                rw [dictInsert_length_not_mem hm]
                omega
              have hnd2 : (dictKeys (dictInsert S.buffer seq (p, now))).Nodup := by
                rw [dictKeys_insert_not_mem hm]
                refine List.Nodup.append hnd (List.nodup_singleton seq) ?_
                intro a ha hb
                rw [List.mem_singleton] at hb
                subst hb
                exact not_mem_of_dictMember_false hm ha
              have hkeys2 : ∀ s ∈ dictKeys (dictInsert S.buffer seq (p, now)),
                  s < U16_MOD ∧ 0 < u16_distance S.expected s ∧
                  u16_in_window s S.expected S.window_size = true := by
                intro s hs
                rw [dictKeys_insert_not_mem hm] at hs
                rcases List.mem_append.mp hs with hol | hnew
                · exact hkeys s hol
                · rw [List.mem_singleton] at hnew
                  subst hnew
                  exact ⟨hseq, h3, h1⟩
              have hins : ∀ x : Option Int,
                  RInv { S with buffer := dictInsert S.buffer seq (p, now),
                                hole_since_ms := x } :=
                fun _ => ⟨heM, hlen2, hnd2, hkeys2⟩
              simpa [on_data, h1, h2, h3, hm, h5] using hins _
            · have hkeep := RInv_set_hole hS'
              simpa [on_data, h1, h2, h3, hm, h5] using hkeep _
          · have hkeep := RInv_set_hole hS'
            simpa [on_data, h1, h2, h3, hm] using hkeep _
        · simpa [on_data, h1, h2, h3] using hS'
      · by_cases hold : seq < S.expected
        · simpa [on_data, h1, hold] using hS'
        · simpa [on_data, h1, hold] using hS'
  have h_tick : RInv (rx_tick S now).1 := by
    rcases hh : S.hole_since_ms with _ | h0
    · simpa [rx_tick, hh] using hS'
    · by_cases ht : S.skip_threshold_ms ≤ now - h0
      · have hdr := RInv_drain S
          (if (rxDrain S.buffer.length (u16_incr S.expected) S.buffer).2.1 ≠ [] ∧
              ¬ dictMember (rxDrain S.buffer.length (u16_incr S.expected) S.buffer).2.1
                  (rxDrain S.buffer.length (u16_incr S.expected) S.buffer).1
           then some now else none)
          hlen hnd (u16_incr S.expected) (u16_incr_lt _) hkeys_incr
        simpa [rx_tick, hh, ht] using hdr
      · simpa [rx_tick, hh, ht] using hS'
  exact ⟨h_on, RInv_not_mem h_on, h_tick, RInv_not_mem h_tick⟩

/-- C6 witness: the invariant theorem applied to the concrete state obtained
by buffering sequence 2 (window 4), then receiving the in-order sequence 0. -/
theorem C6_receiver_invariants_witness :
    RInv (on_data ((on_data (SRReceiver_init 4 none 200) 2 [9] 0).state) 0 [7] 0).state :=
  (C6_receiver_invariants ((on_data (SRReceiver_init 4 none 200) 2 [9] 0).state) 0 [7] 0
    (by decide) (by unfold RInv; decide)).1

/-- C3 amended: `SRReceiver.on_data` emits exactly one ACK — carrying
`max_buffer` minus the buffer size at emission time — iff `ackCond` holds:
`seq` is inside the doubled window around `expected` *and* the arrival was
processed successfully.  In particular a future in-window arrival that finds
the buffer full, an old arrival whose `seq < expected` comparison fails
across the 16-bit wrap, and an out-of-band arrival emit no ACK. -/
theorem C3_ack_emission_characterization (S : RxState) (seq : Nat) (p : List Nat)
    (now : Int) (hseq : seq < U16_MOD) (heM : S.expected < U16_MOD) :
    (on_data S seq p now).ack =
      if ackCond S seq then
        some (seq, ((on_data S seq p now).state.max_buffer : Int)
                    - ((on_data S seq p now).state.buffer.length : Int))
      else none := by
  by_cases h1 : u16_in_window seq S.expected S.window_size = true
  · by_cases h2 : seq = S.expected
    · subst h2
      rcases hsa : u16_in_window S.expected (u16_sub S.expected S.window_size)
          (S.window_size * 2)
      · simp [on_data, ackCond, h1, hsa]
      · simp [on_data, ackCond, h1, hsa]
    · by_cases h3 : 0 < u16_distance S.expected seq
      · rcases hm : dictMember S.buffer seq
        · by_cases h5 : S.buffer.length < S.max_buffer
          · rcases hsa : u16_in_window seq (u16_sub S.expected S.window_size)
                (S.window_size * 2)
            · simp [on_data, ackCond, h1, h2, h3, hm, h5, hsa]
            · simp [on_data, ackCond, h1, h2, h3, hm, h5, hsa]
          · simp [on_data, ackCond, h1, h2, h3, hm, h5]
        · rcases hsa : u16_in_window seq (u16_sub S.expected S.window_size)
              (S.window_size * 2)
          · simp [on_data, ackCond, h1, h2, h3, hm, hsa]
          · simp [on_data, ackCond, h1, h2, h3, hm, hsa]
      · exfalso
        have h0 : u16_distance S.expected seq = 0 := by omega
        exact h2 (((u16_distance_eq_zero heM hseq).mp h0).symm)
  · by_cases hold : seq < S.expected
    · rcases hsa : u16_in_window seq (u16_sub S.expected S.window_size)
          (S.window_size * 2)
      · simp [on_data, ackCond, h1, hold, hsa]
      · simp [on_data, ackCond, h1, hold, hsa]
    · simp [on_data, ackCond, h1, hold]

/-- C3 witness: the characterization applied to the first arrival of the
counterexample trace (sequence 1 into an empty window-4 receiver with
`max_buffer = 2`). -/
theorem C3_ack_emission_witness :
    (on_data (SRReceiver_init 4 (some 2) 0) 1 [] 0).ack =
      if ackCond (SRReceiver_init 4 (some 2) 0) 1 then
        some (1, ((on_data (SRReceiver_init 4 (some 2) 0) 1 [] 0).state.max_buffer : Int)
                  - ((on_data (SRReceiver_init 4 (some 2) 0) 1 [] 0).state.buffer.length
                      : Int))
      else none :=
  C3_ack_emission_characterization (SRReceiver_init 4 (some 2) 0) 1 [] 0
    (by decide) (by decide)


theorem SRSender_send_eq (S : SenderState) (p : List Nat) (now : Int)
    (h : (S.out.length : Int) < get_effective_window S) :
    SRSender_send S p now = some (S.next_seq,
      { S with next_seq := u16_incr S.next_seq,
               out := dictInsert S.out S.next_seq
                 { seq := S.next_seq, payload := p, first_send_ms := now,
                   last_send_ms := now, retries := 0, retransmitted := false } }) := by
  unfold SRSender_send
  rw [if_pos h]

theorem sendStep_eq (S : SenderState)
    (h : (S.out.length : Int) < get_effective_window S) :
    sendStep S = { S with next_seq := u16_incr S.next_seq,
                          out := dictInsert S.out S.next_seq
                            { seq := S.next_seq, payload := [], first_send_ms := 0,
                              last_send_ms := 0, retries := 0, retransmitted := false } } := by
  unfold sendStep
  rw [SRSender_send_eq S [] 0 h]

theorem ack_locked_new_eq (S : SenderState) (a : Nat) (now : Int) (item : TxItem)
    (hget : dictGet S.out a = some item) (hr : item.retries = 0) :
    (ack_locked S a now).state =
      { S with out := dictPop S.out a,
               cwnd := if S.cwnd < S.ssthresh then S.cwnd + 1 else S.cwnd + 1 / S.cwnd,
               dupacks := 0,
               base := slideBase S.base S.next_seq (dictPop S.out a),
               est := update_rto S.est (max 1 (now - item.first_send_ms)) } := by
  unfold ack_locked
  simp only [hget, hr, if_pos]

theorem SRSender_ack_new_eq (S : SenderState) (a : Nat) (w now : Int) (item : TxItem)
    (hget : dictGet S.out a = some item) (hr : item.retries = 0) :
    (SRSender_ack S a (some w) now).state =
      { S with peer_rwnd := ((w : Int) : ℚ),
               out := dictPop S.out a,
               cwnd := if S.cwnd < S.ssthresh then S.cwnd + 1 else S.cwnd + 1 / S.cwnd,
               dupacks := 0,
               base := slideBase S.base S.next_seq (dictPop S.out a),
               est := update_rto S.est (max 1 (now - item.first_send_ms)) } := by
  show (ack_locked { S with peer_rwnd := ((w : Int) : ℚ) } a now).state = _
  exact ack_locked_new_eq { S with peer_rwnd := ((w : Int) : ℚ) } a now item hget hr

theorem effwin_ge_ten (S : SenderState) (hw : S.window_size = 64)
    (hp : S.peer_rwnd = 64) (hc : 10 ≤ S.cwnd) :
    (10 : Int) ≤ get_effective_window S := by
  unfold get_effective_window pyInt
  rw [hw, hp]
  have hm : (10 : ℚ) ≤ min ((64 : Nat) : ℚ) (min 64 S.cwnd) :=
    le_min (by norm_num) (le_min (by norm_num) hc)
  have h0 : (0 : ℚ) ≤ min ((64 : Nat) : ℚ) (min 64 S.cwnd) := le_trans (by norm_num) hm
  rw [if_pos h0]
  calc (10 : Int) = ⌊(10 : ℚ)⌋ := by norm_num
    _ ≤ ⌊min ((64 : Nat) : ℚ) (min 64 S.cwnd)⌋ := Int.floor_le_floor hm

theorem cwnd_step_ge {c s : ℚ} (hc : 10 ≤ c) :
    10 ≤ (if c < s then c + 1 else c + 1 / c) := by
  split
  · linarith
  · have hpos : (0 : ℚ) ≤ 1 / c := by positivity
    linarith

theorem c5_ack_round (T : SenderState) (k : Nat) (hTw : T.window_size = 64)
    (hTb : T.base = 0) (hTn : T.next_seq = k + 2)
    (hTo : T.out = [(0, c5Item0), (k + 1, c5ItemK (k + 1))])
    (hTc : 10 ≤ T.cwnd) (hk : k + 2 < U16_MOD) :
    (SRSender_ack T (k + 1) (some 64) 0).state.window_size = 64 ∧
    (SRSender_ack T (k + 1) (some 64) 0).state.base = 0 ∧
    (SRSender_ack T (k + 1) (some 64) 0).state.next_seq = k + 2 ∧
    (SRSender_ack T (k + 1) (some 64) 0).state.out = [(0, c5Item0)] ∧
    (SRSender_ack T (k + 1) (some 64) 0).state.peer_rwnd = 64 ∧
    10 ≤ (SRSender_ack T (k + 1) (some 64) 0).state.cwnd := by
  have hne0 : ((0 : Nat) == k + 1) = false := by simp
  have h0ne : ¬ (0 : Nat) = k + 1 := by omega
  have hget : dictGet T.out (k + 1) = some (c5ItemK (k + 1)) := by
    rw [hTo]
    simp [dictGet, List.find?, hne0]
  rw [SRSender_ack_new_eq T (k + 1) 64 0 (c5ItemK (k + 1)) hget rfl]
  have hpop : dictPop T.out (k + 1) = [(0, c5Item0)] := by
    rw [hTo]
    simp [dictPop, List.filter, h0ne]
  have hslide : slideBase T.base T.next_seq (dictPop T.out (k + 1)) = 0 := by
    rw [hpop, hTb, hTn]
    unfold slideBase
    have hdist : u16_distance 0 (k + 2) = k + 2 := by
      unfold U16_MOD at hk
      unfold u16_distance U16_MOD
      omega
    rw [hdist]
    show slideBaseAux (k + 2) [(0, c5Item0)] (k + 1 + 1) 0 = 0
    have hmem : dictMember [(0, c5Item0)] 0 = true := by simp [dictMember]
    simp only [slideBaseAux, hmem, or_true, if_pos]
  refine ⟨hTw, ?_, hTn, hpop, by norm_num, cwnd_step_ge hTc⟩
  exact hslide

theorem c5Step_spec (k : Nat) (S : SenderState) (hw : S.window_size = 64)
    (hb : S.base = 0) (hn : S.next_seq = k + 1) (ho : S.out = [(0, c5Item0)])
    (hp : S.peer_rwnd = 64) (hc : 10 ≤ S.cwnd) (hk : k + 2 < U16_MOD) :
    (c5Step (k + 1) S).window_size = 64 ∧ (c5Step (k + 1) S).base = 0 ∧
    (c5Step (k + 1) S).next_seq = k + 2 ∧ (c5Step (k + 1) S).out = [(0, c5Item0)] ∧
    (c5Step (k + 1) S).peer_rwnd = 64 ∧ 10 ≤ (c5Step (k + 1) S).cwnd := by
  have hlen1 : S.out.length = 1 := by rw [ho]; rfl
  have heff : (S.out.length : Int) < get_effective_window S := by
    rw [hlen1]
    have := effwin_ge_ten S hw hp hc
    omega
  unfold c5Step
  rw [sendStep_eq S heff]
  refine c5_ack_round _ k hw hb ?_ ?_ hc hk
  · show u16_incr S.next_seq = k + 2
    rw [hn]
    unfold u16_incr
    exact Nat.mod_eq_of_lt hk
  · show dictInsert S.out S.next_seq _ = _
    rw [ho, hn]
    have hmem : dictMember [(0, c5Item0)] (k + 1) = false := by
      simp [dictMember]
    rw [dictInsert, hmem]
    simp [c5ItemK]

theorem c5State_spec : ∀ k, k ≤ 65534 →
    (c5State k).window_size = 64 ∧ (c5State k).base = 0 ∧
    (c5State k).next_seq = k + 1 ∧ (c5State k).out = [(0, c5Item0)] ∧
    (c5State k).peer_rwnd = 64 ∧ 10 ≤ (c5State k).cwnd := by
  intro k
  induction k with
  | zero =>
    intro _
    exact ⟨by decide, by decide, by decide, by decide, by decide, by decide⟩
  | succ n ih =>
    intro hk1
    obtain ⟨hw, hb, hn, ho, hp, hc⟩ := ih (by omega)
    have hk2 : n + 2 < U16_MOD := by
      unfold U16_MOD
      omega
    exact c5Step_spec n (c5State n) hw hb hn ho hp hc hk2

theorem c5_two_sends (X : SenderState) (hw : X.window_size = 64) (hb : X.base = 0)
    (hn : X.next_seq = 65535) (ho : X.out = [(0, c5Item0)]) (hp : X.peer_rwnd = 64)
    (hc : 10 ≤ X.cwnd) :
    (sendStep (sendStep X)).base = 0 ∧ (sendStep (sendStep X)).next_seq = 1 ∧
    (sendStep (sendStep X)).out = [(0, c5Item0), (65535, c5ItemK 65535)] := by
  have hlen1 : X.out.length = 1 := by rw [ho]; rfl
  have heff1 : (X.out.length : Int) < get_effective_window X := by
    rw [hlen1]
    have := effwin_ge_ten X hw hp hc
    omega
  have e1 := sendStep_eq X heff1
  have hw1 : (sendStep X).window_size = 64 := by rw [e1]; exact hw
  have hb1 : (sendStep X).base = 0 := by rw [e1]; exact hb
  have hn1 : (sendStep X).next_seq = 0 := by
    rw [e1]
    show u16_incr X.next_seq = 0
    rw [hn]
    decide
  have ho1 : (sendStep X).out = [(0, c5Item0), (65535, c5ItemK 65535)] := by
    rw [e1]
    show dictInsert X.out X.next_seq _ = _
    rw [ho, hn]
    decide
  have hp1 : (sendStep X).peer_rwnd = 64 := by rw [e1]; exact hp
  have hc1 : 10 ≤ (sendStep X).cwnd := by rw [e1]; exact hc
  have hlen2 : (sendStep X).out.length = 2 := by rw [ho1]; rfl
  have heff2 : ((sendStep X).out.length : Int)
      < get_effective_window (sendStep X) := by
    rw [hlen2]
    have := effwin_ge_ten (sendStep X) hw1 hp1 hc1
    omega
  have e2 := sendStep_eq (sendStep X) heff2
  refine ⟨?_, ?_, ?_⟩
  · rw [e2]
    exact hb1
  · rw [e2]
    show u16_incr (sendStep X).next_seq = 1
    rw [hn1]
    decide
  · rw [e2]
    show dictInsert (sendStep X).out (sendStep X).next_seq _ = _
    rw [ho1, hn1]
    decide

/-- C5 counterexample: a reachable sender execution violates the window
invariant.  Start with one send (sequence 0, never acknowledged), run 65534
rounds of send-then-ack so `next_seq` advances to 65535 while sequence 0
stays in flight, then two more accepted sends: the first assigns 65535 and
wraps `next_seq` to 0, the second reassigns sequence 0 (silently overwriting
the still-unacknowledged entry).  In the final state sequence 65535 is in
flight but lies outside `[base, next_seq) = [0, 1)` modulo 2^16. -/
theorem C5_window_invariant_cex :
    65535 ∈ dictKeys c5Final.out ∧ c5Final.base = 0 ∧ c5Final.next_seq = 1 ∧
    u16_in_window 65535 c5Final.base (u16_distance c5Final.base c5Final.next_seq)
      = false := by
  obtain ⟨hw, hb, hn, ho, hp, hc⟩ := c5State_spec 65534 (le_refl _)
  have hn65 : (c5State 65534).next_seq = 65535 := by rw [hn]
  obtain ⟨h1, h2, h3⟩ := c5_two_sends (c5State 65534) hw hb hn65 ho hp hc
  refine ⟨?_, h1, h2, ?_⟩
  · show 65535 ∈ dictKeys (sendStep (sendStep (c5State 65534))).out
    rw [h3]
    decide
  · show u16_in_window 65535 (sendStep (sendStep (c5State 65534))).base
      (u16_distance (sendStep (sendStep (c5State 65534))).base
        (sendStep (sendStep (c5State 65534))).next_seq) = false
    rw [h1, h2]
    decide

theorem u16_distance_pos {a b : Nat} (ha : a < U16_MOD) (hb : b < U16_MOD)
    (hne : a ≠ b) : 0 < u16_distance a b := by
  rcases Nat.eq_zero_or_pos (u16_distance a b) with h0 | h0
  · exact absurd ((u16_distance_eq_zero ha hb).mp h0) hne
  · exact h0

theorem u16_distance_incr_left (b x : Nat) :
    u16_distance b x = (u16_distance (u16_incr b) x + 1) % U16_MOD := by
  unfold u16_distance u16_incr U16_MOD
  omega

theorem u16_distance_incr_right (b n : Nat) :
    u16_distance b (u16_incr n) = (u16_distance b n + 1) % U16_MOD := by
  unfold u16_distance u16_incr U16_MOD
  omega

/-- The base-slide loop, with fuel at least the ring distance to `next_seq`,
stays a `u16`, keeps every key of the flight table strictly inside the
(shrunken) window, and crosses only sequences that are not in the table. -/
theorem slideBaseAux_spec (n : Nat) (out : List (Nat × TxItem)) (hn : n < U16_MOD)
    (hkM : ∀ s ∈ dictKeys out, s < U16_MOD) :
    ∀ (fuel b : Nat), b < U16_MOD → u16_distance b n ≤ fuel →
      (∀ s ∈ dictKeys out, u16_distance b s < u16_distance b n) →
      slideBaseAux n out fuel b < U16_MOD ∧
      (∀ s ∈ dictKeys out,
         u16_distance (slideBaseAux n out fuel b) s
           < u16_distance (slideBaseAux n out fuel b) n) ∧
      (∀ s, s < U16_MOD →
         u16_distance b s < u16_distance b (slideBaseAux n out fuel b) →
         s ∉ dictKeys out) ∧
      u16_distance b (slideBaseAux n out fuel b) ≤ u16_distance b n := by
  intro fuel
  induction fuel with
  | zero =>
    intro b hb _ hkeys
    simp only [slideBaseAux]
    refine ⟨hb, hkeys, ?_, ?_⟩
    · intro s _ hlt
      rw [u16_distance_self] at hlt
      omega
    · rw [u16_distance_self]
      omega
  | succ m ih =>
    intro b hb hfuel hkeys
    by_cases hstop : b = n ∨ dictMember out b = true
    · simp only [slideBaseAux, if_pos hstop]
      refine ⟨hb, hkeys, ?_, ?_⟩
      · intro s _ hlt
        rw [u16_distance_self] at hlt
        omega
      · rw [u16_distance_self]
        omega
    · push_neg at hstop
      obtain ⟨hbn, hmem⟩ := hstop
      have hbnotkey : b ∉ dictKeys out := by
        intro hmemk
        exact hmem ((dictMember_iff out b).mpr hmemk)
      have hstep : slideBaseAux n out (m + 1) b = slideBaseAux n out m (u16_incr b) := by
        simp only [slideBaseAux]
        rw [if_neg]
        push_neg
        exact ⟨hbn, fun h => hmem h⟩
      have hdpos : 0 < u16_distance b n := u16_distance_pos hb hn hbn
      have hb1 : u16_incr b < U16_MOD := u16_incr_lt b
      have hd1 : u16_distance (u16_incr b) n = u16_distance b n - 1 :=
        u16_distance_incr hdpos
      have hfuel1 : u16_distance (u16_incr b) n ≤ m := by
        rw [hd1]
        omega
      have hkeys1 : ∀ s ∈ dictKeys out,
          u16_distance (u16_incr b) s < u16_distance (u16_incr b) n := by
        intro s hs
        have hsM := hkM s hs
        have hsne : s ≠ b := fun h => hbnotkey (h ▸ hs)
        have hspos : 0 < u16_distance b s := u16_distance_pos hb hsM (Ne.symm hsne)
        rw [u16_distance_incr hspos, hd1]
        have := hkeys s hs
        omega
      obtain ⟨c1, c2, c3, c4⟩ := ih (u16_incr b) hb1 hfuel1 hkeys1
      rw [hstep]
      have hreach : u16_distance b (slideBaseAux n out m (u16_incr b))
          = u16_distance (u16_incr b) (slideBaseAux n out m (u16_incr b)) + 1 := by
        rw [u16_distance_incr_left b (slideBaseAux n out m (u16_incr b))]
        have hlt : u16_distance (u16_incr b) (slideBaseAux n out m (u16_incr b)) + 1
            < U16_MOD := by
          have h1 := c4
          rw [hd1] at h1
          have h2 := u16_distance_lt b n
          omega
        exact Nat.mod_eq_of_lt hlt
      refine ⟨c1, c2, ?_, ?_⟩
      · intro s hsM hlt
        by_cases hsb : s = b
        · subst hsb
          exact hbnotkey
        · have hspos : 0 < u16_distance b s := u16_distance_pos hb hsM (Ne.symm hsb)
          refine c3 s hsM ?_
          have hbs := u16_distance_incr hspos
          rw [hreach] at hlt
          omega
      · rw [hreach]
        have hc4 : u16_distance (u16_incr b) (slideBaseAux n out m (u16_incr b))
            ≤ u16_distance (u16_incr b) n := c4
        rw [hd1] at hc4
        omega

theorem slideBase_spec (b n : Nat) (out : List (Nat × TxItem)) (hb : b < U16_MOD)
    (hn : n < U16_MOD) (hkM : ∀ s ∈ dictKeys out, s < U16_MOD)
    (hkeys : ∀ s ∈ dictKeys out, u16_distance b s < u16_distance b n) :
    slideBase b n out < U16_MOD ∧
    (∀ s ∈ dictKeys out,
       u16_distance (slideBase b n out) s < u16_distance (slideBase b n out) n) ∧
    (∀ s, s < U16_MOD → u16_distance b s < u16_distance b (slideBase b n out) →
       s ∉ dictKeys out) := by
  have h := slideBaseAux_spec n out hn hkM (u16_distance b n) b hb (le_refl _) hkeys
  exact ⟨h.1, h.2.1, h.2.2.1⟩

theorem scan_out_keys (mr : Nat) (rto now : Int) :
    ∀ l : List (Nat × TxItem), dictKeys (scan_out mr rto now l).1 = dictKeys l := by
  intro l
  induction l with
  | nil => rfl
  | cons hd tl ih =>
    rcases hd with ⟨k, it⟩
    simp only [scan_out]
    split
    · split
      · simp only [dictKeys, List.map]
        rw [show List.map Prod.fst (scan_out mr rto now tl).1
            = List.map Prod.fst tl from ih]
      · simp only [dictKeys, List.map]
        rw [show List.map Prod.fst (scan_out mr rto now tl).1
            = List.map Prod.fst tl from ih]
    · simp only [dictKeys, List.map]
      rw [show List.map Prod.fst (scan_out mr rto now tl).1
          = List.map Prod.fst tl from ih]

theorem dictKeys_filter_sublist {α : Type} (l : List (Nat × α)) (pred : Nat × α → Bool) :
    List.Sublist (dictKeys (l.filter pred)) (dictKeys l) :=
  (List.filter_sublist l).map Prod.fst

/-- The locked body of `ack` preserves sender well-formedness and the window
invariant, and `base` only crosses sequences that are not in flight
afterwards. -/
theorem ack_locked_preserves (T : SenderState) (hWF : SWF T) (hInv : SInv T)
    (a : Nat) (now : Int) :
    SWF (ack_locked T a now).state ∧ SInv (ack_locked T a now).state ∧
    ∀ s, s < U16_MOD →
      u16_distance T.base s < u16_distance T.base (ack_locked T a now).state.base →
      s ∉ dictKeys (ack_locked T a now).state.out := by
  obtain ⟨hWb, hWn, hWnd, hWkM⟩ := hWF
  rcases hget : dictGet T.out a with _ | item
  · rcases hgb : dictGet T.out T.base with _ | bitem
    · have hb2 : (ack_locked T a now).state.base = T.base := by
        unfold ack_locked
        simp only [hget, hgb]
      have hn2 : (ack_locked T a now).state.next_seq = T.next_seq := by
        unfold ack_locked
        simp only [hget, hgb]
      have hk2 : dictKeys (ack_locked T a now).state.out = dictKeys T.out := by
        unfold ack_locked
        simp only [hget, hgb]
      refine ⟨⟨?_, ?_, ?_, ?_⟩, ?_, ?_⟩
      · rw [hb2]; exact hWb
      · rw [hn2]; exact hWn
      · rw [hk2]; exact hWnd
      · intro s hs; rw [hk2] at hs; exact hWkM s hs
      · intro s hs
        rw [hk2] at hs
        rw [hb2, hn2]
        exact hInv s hs
      · intro s hsM hlt
        rw [hb2, u16_distance_self] at hlt
        exact absurd hlt (by omega)
    · by_cases hth : DUPACK_THRESHOLD ≤ T.dupacks + 1
      · have hb2 : (ack_locked T a now).state.base = T.base := by
          unfold ack_locked
          simp only [hget, hgb, if_pos hth]
        have hn2 : (ack_locked T a now).state.next_seq = T.next_seq := by
          unfold ack_locked
          simp only [hget, hgb, if_pos hth]
        have hmemb : dictMember T.out T.base = true :=
          (dictMember_iff T.out T.base).mpr (mem_dictKeys_of_dictGet hgb)
        have hk2 : dictKeys (ack_locked T a now).state.out = dictKeys T.out := by
          unfold ack_locked
          simp only [hget, hgb, if_pos hth]
          exact dictKeys_insert_mem hmemb
        refine ⟨⟨?_, ?_, ?_, ?_⟩, ?_, ?_⟩
        · rw [hb2]; exact hWb
        · rw [hn2]; exact hWn
        · rw [hk2]; exact hWnd
        · intro s hs; rw [hk2] at hs; exact hWkM s hs
        · intro s hs
          rw [hk2] at hs
          rw [hb2, hn2]
          exact hInv s hs
        · intro s hsM hlt
          rw [hb2, u16_distance_self] at hlt
          exact absurd hlt (by omega)
      · have hb2 : (ack_locked T a now).state.base = T.base := by
          unfold ack_locked
          simp only [hget, hgb, if_neg hth]
        have hn2 : (ack_locked T a now).state.next_seq = T.next_seq := by
          unfold ack_locked
          simp only [hget, hgb, if_neg hth]
        have hk2 : dictKeys (ack_locked T a now).state.out = dictKeys T.out := by
          unfold ack_locked
          simp only [hget, hgb, if_neg hth]
        refine ⟨⟨?_, ?_, ?_, ?_⟩, ?_, ?_⟩
        · rw [hb2]; exact hWb
        · rw [hn2]; exact hWn
        · rw [hk2]; exact hWnd
        · intro s hs; rw [hk2] at hs; exact hWkM s hs
        · intro s hs
          rw [hk2] at hs
          rw [hb2, hn2]
          exact hInv s hs
        · intro s hsM hlt
          rw [hb2, u16_distance_self] at hlt
          exact absurd hlt (by omega)
  · have hout2 : (ack_locked T a now).state.out = dictPop T.out a := by
      unfold ack_locked
      simp only [hget]
    have hb2 : (ack_locked T a now).state.base
        = slideBase T.base T.next_seq (dictPop T.out a) := by
      unfold ack_locked
      simp only [hget]
    have hn2 : (ack_locked T a now).state.next_seq = T.next_seq := by
      unfold ack_locked
      simp only [hget]
    have hkM1 : ∀ s ∈ dictKeys (dictPop T.out a), s < U16_MOD := by
      intro s hs
      exact hWkM s ((mem_dictKeys_pop T.out a s).mp hs).1
    have hki1 : ∀ s ∈ dictKeys (dictPop T.out a),
        u16_distance T.base s < u16_distance T.base T.next_seq := by
      intro s hs
      exact of_decide_eq_true (hInv s ((mem_dictKeys_pop T.out a s).mp hs).1)
    obtain ⟨sb1, sb2, sb3⟩ :=
      slideBase_spec T.base T.next_seq (dictPop T.out a) hWb hWn hkM1 hki1
    refine ⟨⟨?_, ?_, ?_, ?_⟩, ?_, ?_⟩
    · rw [hb2]; exact sb1
    · rw [hn2]; exact hWn
    · rw [hout2]; exact nodup_dictKeys_pop T.out a hWnd
    · intro s hs
      rw [hout2] at hs
      exact hkM1 s hs
    · intro s hs
      rw [hout2] at hs
      rw [hb2, hn2]
      exact decide_eq_true (sb2 s hs)
    · intro s hsM hlt
      rw [hb2] at hlt
      rw [hout2]
      exact sb3 s hsM hlt

/-- One timer body preserves sender well-formedness and the window invariant,
and `base` only crosses sequences that are no longer in flight. -/
theorem timer_tick_preserves (S : SenderState) (hWF : SWF S) (hInv : SInv S)
    (now : Int) :
    SWF (timer_tick S now).state ∧ SInv (timer_tick S now).state ∧
    ∀ s, s < U16_MOD →
      u16_distance S.base s < u16_distance S.base (timer_tick S now).state.base →
      s ∉ dictKeys (timer_tick S now).state.out := by
  obtain ⟨hWb, hWn, hWnd, hWkM⟩ := hWF
  set out1 := (scan_out S.max_retries (pyInt S.est.rto) now S.out).1.filter
      (fun p => decide (p.1 ∉ (scan_out S.max_retries (pyInt S.est.rto) now S.out).2.2))
    with hout1def
  have hout2 : (timer_tick S now).state.out = out1 := by
    rw [hout1def]
    simp only [timer_tick]
    split <;> rfl
  have hb2 : (timer_tick S now).state.base = slideBase S.base S.next_seq out1 := by
    rw [hout1def]
    simp only [timer_tick]
    split <;> rfl
  have hn2 : (timer_tick S now).state.next_seq = S.next_seq := by
    simp only [timer_tick]
    split <;> rfl
  have hsub : List.Sublist (dictKeys out1) (dictKeys S.out) := by
    rw [hout1def]
    have h1 := dictKeys_filter_sublist
      (scan_out S.max_retries (pyInt S.est.rto) now S.out).1
      (fun p => decide (p.1 ∉ (scan_out S.max_retries (pyInt S.est.rto) now S.out).2.2))
    rwa [scan_out_keys S.max_retries (pyInt S.est.rto) now S.out] at h1
  have hkM1 : ∀ s ∈ dictKeys out1, s < U16_MOD := fun s hs => hWkM s (hsub.subset hs)
  have hki1 : ∀ s ∈ dictKeys out1,
      u16_distance S.base s < u16_distance S.base S.next_seq :=
    fun s hs => of_decide_eq_true (hInv s (hsub.subset hs))
  obtain ⟨sb1, sb2, sb3⟩ :=
    slideBase_spec S.base S.next_seq out1 hWb hWn hkM1 hki1
  refine ⟨⟨?_, ?_, ?_, ?_⟩, ?_, ?_⟩
  · rw [hb2]; exact sb1
  · rw [hn2]; exact hWn
  · rw [hout2]; exact hsub.nodup hWnd
  · intro s hs
    rw [hout2] at hs
    exact hkM1 s hs
  · intro s hs
    rw [hout2] at hs
    rw [hb2, hn2]
    exact decide_eq_true (sb2 s hs)
  · intro s hsM hlt
    rw [hb2] at hlt
    rw [hout2]
    exact sb3 s hsM hlt

/-- C5 amended: the sender window invariant — every in-flight sequence lies in
`[base, next_seq)` modulo 2^16 — is preserved by `ack()` and the
retransmission timer unconditionally, and by `send()` provided the window
`[base, next_seq)` has not yet wrapped around the whole 16-bit ring (one send
short of 2^16 outstanding positions); and `base` never moves past a sequence
that is still in flight afterwards.  The unconditional claim fails at the
wrap (see the counterexample). -/
theorem C5_sender_window_amended (S : SenderState) (hWF : SWF S) (hInv : SInv S) :
    (∀ (p : List Nat) (now : Int) (seq : Nat) (S1 : SenderState),
       u16_distance S.base S.next_seq + 1 < U16_MOD →
       SRSender_send S p now = some (seq, S1) →
       seq = S.next_seq ∧ S1.base = S.base ∧ SWF S1 ∧ SInv S1) ∧
    (∀ (a : Nat) (w : Option Int) (now : Int),
       SWF (SRSender_ack S a w now).state ∧ SInv (SRSender_ack S a w now).state ∧
       ∀ s, s < U16_MOD →
         u16_distance S.base s
           < u16_distance S.base (SRSender_ack S a w now).state.base →
         s ∉ dictKeys (SRSender_ack S a w now).state.out) ∧
    (∀ now : Int,
       SWF (timer_tick S now).state ∧ SInv (timer_tick S now).state ∧
       ∀ s, s < U16_MOD →
         u16_distance S.base s < u16_distance S.base (timer_tick S now).state.base →
         s ∉ dictKeys (timer_tick S now).state.out) := by
  obtain ⟨hWb, hWn, hWnd, hWkM⟩ := hWF
  refine ⟨?_, ?_, ?_⟩
  · intro p now seq S1 hspan hsend
    unfold SRSender_send at hsend
    split at hsend
    · rename_i hgate
      injection hsend with hsend1
      injection hsend1 with hseq hS1
      subst hseq
      subst hS1
      have hnotmem : S.next_seq ∉ dictKeys S.out := by
        intro hmem
        have := of_decide_eq_true (hInv S.next_seq hmem)
        omega
      have hmemb : dictMember S.out S.next_seq = false := by
        rcases h : dictMember S.out S.next_seq
        · rfl
        · exact absurd ((dictMember_iff S.out S.next_seq).mp h) hnotmem
      have hkeys : dictKeys (dictInsert S.out S.next_seq
          { seq := S.next_seq, payload := p, first_send_ms := now,
            last_send_ms := now, retries := 0, retransmitted := false })
          = dictKeys S.out ++ [S.next_seq] := dictKeys_insert_not_mem hmemb
      have hdist : u16_distance S.base (u16_incr S.next_seq)
          = u16_distance S.base S.next_seq + 1 := by
        rw [u16_distance_incr_right]
        exact Nat.mod_eq_of_lt (by omega)
      refine ⟨rfl, rfl, ⟨hWb, u16_incr_lt _, ?_, ?_⟩, ?_⟩
      · show (dictKeys (dictInsert S.out S.next_seq
            { seq := S.next_seq, payload := p, first_send_ms := now,
              last_send_ms := now, retries := 0, retransmitted := false })).Nodup
        rw [hkeys]
        refine List.Nodup.append hWnd (List.nodup_singleton _) ?_
        intro x hx hx2
        rw [List.mem_singleton] at hx2
        subst hx2
        exact hnotmem hx
      · show ∀ s ∈ dictKeys (dictInsert S.out S.next_seq
            { seq := S.next_seq, payload := p, first_send_ms := now,
              last_send_ms := now, retries := 0, retransmitted := false }),
          s < U16_MOD
        rw [hkeys]
        intro s hs
        rcases List.mem_append.mp hs with hs1 | hs1
        · exact hWkM s hs1
        · rw [List.mem_singleton] at hs1
          subst hs1
          exact hWn
      · show ∀ s ∈ dictKeys (dictInsert S.out S.next_seq
            { seq := S.next_seq, payload := p, first_send_ms := now,
              last_send_ms := now, retries := 0, retransmitted := false }),
          u16_in_window s S.base (u16_distance S.base (u16_incr S.next_seq)) = true
        rw [hkeys, hdist]
        intro s hs
        refine decide_eq_true ?_
        rcases List.mem_append.mp hs with hs1 | hs1
        · have := of_decide_eq_true (hInv s hs1)
          omega
        · rw [List.mem_singleton] at hs1
          subst hs1
          omega
    · cases hsend
  · intro a w now
    rcases w with _ | wv
    · exact ack_locked_preserves S ⟨hWb, hWn, hWnd, hWkM⟩ hInv a now
    · exact ack_locked_preserves { S with peer_rwnd := ((wv : Int) : ℚ) }
        ⟨hWb, hWn, hWnd, hWkM⟩ hInv a now
  · intro now
    exact timer_tick_preserves S ⟨hWb, hWn, hWnd, hWkM⟩ hInv now

/-- C5 amended witness: the preservation theorem applied at the initial
sender state, checking the `ack` and timer conclusions and the send
conclusion for a concrete accepted send. -/
theorem C5_sender_window_witness :
    SWF (SRSender_ack (SRSender_init 64 200 10) 0 (some 32) 0).state ∧
    SInv (SRSender_ack (SRSender_init 64 200 10) 0 (some 32) 0).state ∧
    SWF (timer_tick (SRSender_init 64 200 10) 0).state := by
  have h := C5_sender_window_amended (SRSender_init 64 200 10)
    (by unfold SWF; decide) (by unfold SInv; decide)
  exact ⟨(h.2.1 0 (some 32) 0).1, (h.2.1 0 (some 32) 0).2.1, (h.2.2 0).1⟩

/-- C10 witness: the peer-learning theorem applied to a concrete first
datagram source address. -/
theorem C10_peer_address_learning_witness :
    recv_loop_run (none : Option Nat) (7 :: [9]) = some 7 :=
  (C10_peer_address_learning 7 [9]).1
